import Mathlib

/-!
Verification development for the HALFpipe launcher (`run_HALFpipe.py`).

The file shallowly embeds the two algorithmic cores of the launcher:

* the subject-selection token expander (`expand_subject_tokens`,
  `_normalize_one_subject_token`, the `_RANGE_RE` range grammar), and
* the singularity command builder (`build_command` with its flag helpers).

Strings are modelled by Lean `String` (a wrapped `List Char`); Python string
primitives used by the source (`str.strip`, `str.startswith`, slicing,
`str.isdigit`, `str.isalnum`, `str.zfill`, `str.split`, `str(int)`) are
embedded as executable functions on the character list.  The filesystem and
the environment are explicit parameters (`Fs`, an `Option String` for the
`HALFpipe_sif` variable).  Failures (`raise ValueError` / `RuntimeError`)
are modelled with `Except`, with one error constructor per raise site,
named after the error taxonomy of the specification.
-/

/-- Python `str.strip()` of trailing whitespace (embedded on the character
list): drop the longest whitespace suffix. -/
def dropTrailingWs (l : List Char) : List Char :=
  (l.reverse.dropWhile Char.isWhitespace).reverse

/-- Python `str.strip()` (embedded on the character list): drop the longest
whitespace prefix and suffix. -/
def pyStripData (l : List Char) : List Char :=
  dropTrailingWs (l.dropWhile Char.isWhitespace)

/-- Python `tok.strip()`. -/
def pyStrip (s : String) : String :=
  String.mk (pyStripData s.data)

/-- Python `tok.startswith("sub-")` (embedded on the character list). -/
def startsWithSubData (l : List Char) : Bool :=
  match l with
  | c1 :: c2 :: c3 :: c4 :: _ => c1 == 's' && c2 == 'u' && c3 == 'b' && c4 == '-'
  | _ => false

/-- Python `tok[4:] if tok.startswith("sub-") else tok` from
`_normalize_one_subject_token` (embedded on the character list). -/
def stripSubData (l : List Char) : List Char :=
  if startsWithSubData l then l.drop 4 else l

/-- String wrapper for `stripSubData`. -/
def stripSub (s : String) : String :=
  String.mk (stripSubData s.data)

/-- Python `core.isdigit()` for ASCII decimal strings: non-empty and all
decimal digits. -/
def isDigitStr (s : String) : Bool :=
  !s.data.isEmpty && s.data.all Char.isDigit

/-- Python `core.isalnum()` for ASCII strings: non-empty and all
letters/digits. -/
def isAlnumStr (s : String) : Bool :=
  !s.data.isEmpty && s.data.all Char.isAlphanum

/-- Python `s.zfill(w)` for sign-free strings: left-pad with `'0'` to
minimum width `w` (the call sites only ever pass decimal-digit strings). -/
def zfill (w : Nat) (s : String) : String :=
  String.mk (List.replicate (w - s.data.length) '0' ++ s.data)

/-- Errors raised by `_normalize_one_subject_token` (`ValueError` in the
source), named after the specification's taxonomy. -/
inductive SubjectError where
  /-- `raise ValueError("Empty subject token")`. -/
  | emptyToken : SubjectError
  /-- `raise ValueError(f"Invalid subject identifier '<tok>'. ...")`;
  carries the stripped token reported in the message. -/
  | invalidSubjectToken (tok : String) : SubjectError
deriving DecidableEq, Repr

/-- `_normalize_one_subject_token(tok)` from `run_HALFpipe.py`:
strip whitespace, reject empty, strip an optional `sub-` prefix, zero-pad
all-digit cores to minimum width 2, pass alphanumeric cores through, and
reject everything else. -/
def normalize_one_subject_token (tok : String) : Except SubjectError String :=
  if (pyStrip tok).data.isEmpty then .error .emptyToken
  else if isDigitStr (stripSub (pyStrip tok)) then
    .ok ("sub-" ++ zfill 2 (stripSub (pyStrip tok)))
  else if isAlnumStr (stripSub (pyStrip tok)) then
    .ok ("sub-" ++ stripSub (pyStrip tok))
  else .error (.invalidSubjectToken (pyStrip tok))

/-- One endpoint of `_RANGE_RE = ^(?P<a>sub-\d+|\d+)\s*-\s*(?P<b>sub-\d+|\d+)$`:
either `sub-` followed by a maximal non-empty digit run, or a maximal
non-empty digit run.  Returns the matched endpoint and the rest of the
input.  The two regex alternatives are distinguished by the first
character (a digit run cannot start with `'s'`), and the greedy digit run
never needs to backtrack, because whatever follows it in the regex
(`\s*-\s*` or end of input) cannot consume a digit; hence this
deterministic parser is equivalent to the regex engine's search. -/
def parseEndpointData (l : List Char) : Option (List Char × List Char) :=
  if startsWithSubData l then
    if ((l.drop 4).takeWhile Char.isDigit).isEmpty then none
    else some ([ 's', 'u', 'b', '-'] ++ (l.drop 4).takeWhile Char.isDigit,
      (l.drop 4).dropWhile Char.isDigit)
  else
    if (l.takeWhile Char.isDigit).isEmpty then none
    else some (l.takeWhile Char.isDigit, l.dropWhile Char.isDigit)

/-- Last stage of the range match: the result of parsing the second
endpoint must consume the whole remaining input. -/
def rangeFin (a : List Char) (r : Option (List Char × List Char)) :
    Option (List Char × List Char) :=
  match r with
  | none => none
  | some (b, rest3) => if rest3.isEmpty then some (a, b) else none

/-- Middle stage of the range match: after the first endpoint `a`, expect
optional whitespace, a literal hyphen, optional whitespace, then the
second endpoint ending the input. -/
def rangeTail (a rest : List Char) : Option (List Char × List Char) :=
  match rest.dropWhile Char.isWhitespace with
  | [] => none
  | c :: rest2 =>
    if c = '-' then rangeFin a (parseEndpointData (rest2.dropWhile Char.isWhitespace))
    else none

/-- Anchored match of `_RANGE_RE` (see `parseEndpointData`): endpoint,
optional whitespace, a literal hyphen, optional whitespace, endpoint,
end of input.  Returns the two captured endpoint groups. -/
def matchRangeData (l : List Char) : Option (List Char × List Char) :=
  match parseEndpointData l with
  | none => none
  | some (a, rest) => rangeTail a rest

/-- `_RANGE_RE.match(tok)` with the two named groups `a` and `b`. -/
def matchRange (s : String) : Option (String × String) :=
  match matchRangeData s.data with
  | none => none
  | some (a, b) => some (String.mk a, String.mk b)

/-- Value of a digit string, `int()` on the all-digit call-site inputs
(embedded as a left fold). -/
def natOfDigits (l : List Char) : Nat :=
  l.foldl (fun a c => 10 * a + (c.toNat - 48)) 0

/-- Python `s.split("-")[1]` for the normalized `sub-<core>` strings it is
applied to: the characters strictly between the first hyphen and the next
hyphen (or the end). -/
def secondFieldData (l : List Char) : List Char :=
  ((l.dropWhile (fun c => c != '-')).drop 1).takeWhile (fun c => c != '-')

/-- `int(a_norm.split("-")[1])` from the range branch of
`expand_subject_tokens`. -/
def secondFieldNum (s : String) : Nat :=
  natOfDigits (secondFieldData s.data)

/-- Decimal digits of `n`, most significant first, with explicit fuel
(Python `str(n)` for a non-negative `n`); the initial fuel `n + 1` always
suffices. -/
def natToDigitsAux : Nat → Nat → List Char → List Char
  | 0, _, acc => acc
  | fuel + 1, n, acc =>
    if n < 10 then Char.ofNat (48 + n) :: acc
    else natToDigitsAux fuel (n / 10) (Char.ofNat (48 + n % 10) :: acc)

/-- Python `str(n)` for a natural number. -/
def pyStrOfNat (n : Nat) : String :=
  String.mk (natToDigitsAux (n + 1) n [])

/-- The inclusive integer walk `range(a_num, b_num + step, step)` with
`step = 1 if b_num >= a_num else -1` from `expand_subject_tokens`. -/
def walkRange (a b : Nat) : List Nat :=
  if a ≤ b then List.range' a (b - a + 1)
  else (List.range' b (a - b + 1)).reverse

/-- Numeric value of a range endpoint as captured by the range grammar:
the value of its digit run (with an optional `sub-` prefix removed). -/
def endpointVal (e : String) : Nat :=
  natOfDigits (stripSubData e.data)

/-- The loop body of `expand_subject_tokens` for one stripped, non-empty
token: on a range match, normalize both endpoints, take their numeric
values and emit the zero-padded walk; otherwise normalize the single
token. -/
def expandToken (t : String) : Except SubjectError (List String) :=
  match matchRange t with
  | some (araw, braw) =>
    match normalize_one_subject_token araw with
    | .error e => .error e
    | .ok anorm =>
      match normalize_one_subject_token braw with
      | .error e => .error e
      | .ok bnorm =>
        .ok ((walkRange (secondFieldNum anorm) (secondFieldNum bnorm)).map
          (fun n => "sub-" ++ zfill 2 (pyStrOfNat n)))
  | none =>
    match normalize_one_subject_token t with
    | .error e => .error e
    | .ok s => .ok [s]

/-- The main loop of `expand_subject_tokens`: strip each token, silently
skip tokens that are empty after stripping (`if not tok: continue`), and
concatenate the per-token expansions in order. -/
def expandAll : List String → Except SubjectError (List String)
  | [] => .ok []
  | tok :: rest =>
    if (pyStrip tok).data.isEmpty then expandAll rest
    else
      match expandToken (pyStrip tok) with
      | .error e => .error e
      | .ok xs =>
        match expandAll rest with
        | .error e => .error e
        | .ok ys => .ok (xs ++ ys)

/-- The de-duplication loop of `expand_subject_tokens` (`seen` set plus
`out` list, keeping the first occurrence of each element). -/
def dedupAcc (seen : List String) : List String → List String
  | [] => []
  | s :: rest => if s ∈ seen then dedupAcc seen rest else s :: dedupAcc (s :: seen) rest

/-- `expand_subject_tokens(tokens)` from `run_HALFpipe.py`: expand every
token (unrolling ranges), then de-duplicate preserving first-occurrence
order. -/
def expand_subject_tokens (tokens : List String) : Except SubjectError (List String) :=
  match expandAll tokens with
  | .error e => .error e
  | .ok l => .ok (dedupAcc [] l)

example : expand_subject_tokens ["01-03"] = .ok ["sub-01", "sub-02", "sub-03"] := rfl
example : expand_subject_tokens ["03-01"] = .ok ["sub-03", "sub-02", "sub-01"] := rfl
example : expand_subject_tokens ["sub-05", "05"] = .ok ["sub-05"] := rfl
example : expand_subject_tokens ["01", "abc", "02"] = .ok ["sub-01", "sub-abc", "sub-02"] := rfl
example : expand_subject_tokens [""] = .ok [] := rfl
example : expand_subject_tokens ["sub-"] = .error (.invalidSubjectToken "sub-") := rfl
example : expand_subject_tokens ["007"] = .ok ["sub-007"] := rfl
example : expand_subject_tokens ["007-007"] = .ok ["sub-07"] := rfl
example : expand_subject_tokens ["100"] = .ok ["sub-100"] := rfl
example : expand_subject_tokens ["sub-01-sub-03"] = .ok ["sub-01", "sub-02", "sub-03"] := rfl

/-- The execution modes of the launcher (`choices=["ui-old", "tui", "model",
"group-level"]` in `main`). -/
inductive Mode where
  | uiOld : Mode
  | tui : Mode
  | model : Mode
  | groupLevel : Mode
deriving DecidableEq, Repr

/-- The advanced step choices (`choices=["spec-ui", "workflow", "run"]` for
both `--only-step` and `--skip-step`). -/
inductive StepChoice where
  | specUi : StepChoice
  | workflow : StepChoice
  | running : StepChoice
deriving DecidableEq, Repr

/-- The command-line string of a step choice. -/
def stepName : StepChoice → String
  | .specUi => "spec-ui"
  | .workflow => "workflow"
  | .running => "run"

/-- The resolved options consumed by `build_command` (the `args` namespace
after parsing and `--n-procs` resolution in `main`).  Optional string
options are `Option String`; `some ""` models an explicitly supplied empty
string, which Python truthiness tests (`if args.x:`) treat like `None`. -/
structure InvocationOptions where
  bidsdir : String
  workdir : String
  mode : Mode
  verbose : Bool
  debug : Bool
  inputDirectory : Option String
  seeddir : Option String
  onlyStep : Option StepChoice
  skipStep : Option StepChoice
  subjectInclude : Option (List String)
  subjectExclude : Option (List String)
  nProcs : Nat
deriving DecidableEq, Repr

/-- The filesystem collaborator: the two predicates `build_command`
consults (`os.path.exists`, `os.path.isdir`). -/
structure Fs where
  pathExists : String → Bool
  isDir : String → Bool

/-- Errors raised on the way to a command vector (`RuntimeError` in the
source, argparse's rejection for the mutually exclusive step group), named
after the specification's taxonomy. -/
inductive BuildError where
  /-- argparse rejects a command line supplying both `--only-step` and
  `--skip-step` (`add_mutually_exclusive_group`). -/
  | mutuallyExclusiveSteps : BuildError
  /-- `HALFpipe_sif` unset, empty, or not an existing path. -/
  | missingEnvironment : BuildError
  /-- `Seed-directory does not exist or is not a directory`. -/
  | invalidSeedDirectory (d : String) : BuildError
  /-- `--workdir ... does not exist but is required ...` from
  `add_halfpipe_advanced_flags`. -/
  | workdirNotADirectory (w : String) : BuildError
  /-- `group-level requires --input-directory`. -/
  | missingRequiredOption : BuildError
  /-- a `ValueError` from `expand_subject_tokens`, re-raised as a
  `RuntimeError` by `add_subject_flags`. -/
  | subjectTokens (e : SubjectError) : BuildError
deriving DecidableEq, Repr

/-- `add_common_flags(cmd, args)`: append `--verbose` and `--debug` when
enabled. -/
def add_common_flags (cmd : List String) (o : InvocationOptions) : List String :=
  (cmd ++ (if o.verbose then ["--verbose"] else [])) ++
    (if o.debug then ["--debug"] else [])

/-- The arguments appended for `--only-step`: the `--only-<step>` flag,
plus `--workdir <workdir>` when the step is `run` or `workflow`. -/
def onlyStepFlags (o : InvocationOptions) : List String :=
  match o.onlyStep with
  | none => []
  | some st =>
    ("--only-" ++ stepName st) ::
      (if st = .running ∨ st = .workflow then ["--workdir", o.workdir] else [])

/-- The arguments appended for `--skip-step`: the `--skip-<step>` flag,
plus `--workdir <workdir>` when the step is `spec-ui`. -/
def skipStepFlags (o : InvocationOptions) : List String :=
  match o.skipStep with
  | none => []
  | some st =>
    ("--skip-" ++ stepName st) ::
      (if st = .specUi then ["--workdir", o.workdir] else [])

/-- `add_halfpipe_advanced_flags(cmd, args)`: append the `--only-<step>` /
`--skip-<step>` flags (with `--workdir` for the step choices that need
it), then unconditionally require the working directory to be an existing
directory. -/
def add_halfpipe_advanced_flags (cmd : List String) (o : InvocationOptions)
    (fs : Fs) : Except BuildError (List String) :=
  if fs.isDir o.workdir then .ok ((cmd ++ onlyStepFlags o) ++ skipStepFlags o)
  else .error (.workdirNotADirectory o.workdir)

/-- One branch of `add_subject_flags`: if the token list option is truthy,
expand it and append one `flag, subject` pair per expanded subject, in
order. -/
def addSubjectList (cmd : List String) (flag : String)
    (toks : Option (List String)) : Except BuildError (List String) :=
  match toks with
  | none => .ok cmd
  | some l =>
    if l.isEmpty then .ok cmd
    else
      match expand_subject_tokens l with
      | .error e => .error (.subjectTokens e)
      | .ok subs => .ok (subs.foldl (fun c s => c ++ [flag, s]) cmd)

/-- `add_subject_flags(cmd, args)`: `--subject-include` pairs first, then
`--subject-exclude` pairs. -/
def add_subject_flags (cmd : List String) (o : InvocationOptions) :
    Except BuildError (List String) :=
  match addSubjectList cmd "--subject-include" o.subjectInclude with
  | .error e => .error e
  | .ok c => addSubjectList c "--subject-exclude" o.subjectExclude

/-- The bind-mount list of `build_command`: `bidsdir` and `workdir` mapped
to themselves, plus, when a seed directory is supplied (truthy) and is a
directory, the seed directory mapped to itself; a supplied truthy
non-directory raises. -/
def mkBinds (o : InvocationOptions) (fs : Fs) : Except BuildError (List String) :=
  match o.seeddir with
  | none => .ok [o.bidsdir ++ ":" ++ o.bidsdir, o.workdir ++ ":" ++ o.workdir]
  | some sd =>
    if sd.data.isEmpty then
      .ok [o.bidsdir ++ ":" ++ o.bidsdir, o.workdir ++ ":" ++ o.workdir]
    else if fs.isDir sd then
      .ok [o.bidsdir ++ ":" ++ o.bidsdir, o.workdir ++ ":" ++ o.workdir, sd ++ ":" ++ sd]
    else .error (.invalidSeedDirectory sd)

/-- `base_exec` from `build_command`: the `singularity exec` template with
the joined bind argument. -/
def baseExec (sif : String) (binds : List String) : List String :=
  ["singularity", "exec", "--bind", String.intercalate "," binds, sif, "halfpipe", "--tui"]

/-- `base_run` from `build_command`: the `singularity run` template with
the joined bind argument. -/
def baseRun (sif : String) (binds : List String) : List String :=
  ["singularity", "run", "--bind", String.intercalate "," binds, sif]

/-- The flag layering shared by the `tui`, `model` and `group-level`
branches of `build_command`: common flags, advanced flags, subject flags,
then the `--nipype-n-procs` pair. -/
def execChunk (o : InvocationOptions) (fs : Fs) (sif : String)
    (binds : List String) : Except BuildError (List String) :=
  match add_halfpipe_advanced_flags (add_common_flags (baseExec sif binds) o) o fs with
  | .error e => .error e
  | .ok c2 =>
    match add_subject_flags c2 o with
    | .error e => .error e
    | .ok c3 => .ok (c3 ++ ["--nipype-n-procs", pyStrOfNat o.nProcs])

/-- The mode dispatch of `build_command`, after the environment check and
the bind-list construction. -/
def buildTail (o : InvocationOptions) (fs : Fs) (sif : String)
    (binds : List String) : Except BuildError (List String) :=
  match o.mode with
  | .uiOld => .ok (add_common_flags (baseRun sif binds) o)
  | .tui => execChunk o fs sif binds
  | .model =>
    match execChunk o fs sif binds with
    | .error e => .error e
    | .ok c => .ok (c ++ ["--only-model-chunk"])
  | .groupLevel =>
    match o.inputDirectory with
    | none => .error .missingRequiredOption
    | some d =>
      if d.data.isEmpty then .error .missingRequiredOption
      else
        match execChunk o fs sif binds with
        | .error e => .error e
        | .ok c => .ok (c ++ ["group-level", "--input-directory", d])

/-- `build_command(args)` from `run_HALFpipe.py`: check the
`HALFpipe_sif` environment value, build the bind list, then dispatch on
the mode, layering common flags, advanced flags, subject flags, the
process-count flag and the mode-specific trailing arguments. -/
def build_command (o : InvocationOptions) (env : Option String) (fs : Fs) :
    Except BuildError (List String) :=
  match env with
  | none => .error .missingEnvironment
  | some sif =>
    if sif.data.isEmpty then .error .missingEnvironment
    else if !fs.pathExists sif then .error .missingEnvironment
    else
      match mkBinds o fs with
      | .error e => .error e
      | .ok binds => buildTail o fs sif binds

/-- The argparse mutually exclusive group for `--only-step` / `--skip-step`
declared in `main`: a command line supplying both options is rejected by
the parser before anything else runs. -/
def validateStepSelection (o : InvocationOptions) : Except BuildError Unit :=
  match o.onlyStep, o.skipStep with
  | some _, some _ => .error .mutuallyExclusiveSteps
  | _, _ => .ok ()

/-- Option parsing (restricted to the validation the claims are about)
followed by `build_command`, as sequenced by `main`. -/
def parseAndBuild (o : InvocationOptions) (env : Option String) (fs : Fs) :
    Except BuildError (List String) :=
  match validateStepSelection o with
  | .error e => .error e
  | .ok _ => build_command o env fs

/-- The environment collaborator is in a good state: `HALFpipe_sif` is set,
non-empty, and names an existing path. -/
def envOk (env : Option String) (fs : Fs) : Prop :=
  ∃ sif, env = some sif ∧ sif.data ≠ [] ∧ fs.pathExists sif = true

/-- The seed-directory option passes its validation gate: absent, empty
(Python-falsy), or an existing directory. -/
def seedOk (o : InvocationOptions) (fs : Fs) : Prop :=
  ∀ sd, o.seeddir = some sd → sd.data = [] ∨ fs.isDir sd = true

example :
    build_command
      { bidsdir := "/b", workdir := "/w", mode := .uiOld, verbose := false,
        debug := false, inputDirectory := none, seeddir := some "",
        onlyStep := none, skipStep := none, subjectInclude := none,
        subjectExclude := none, nProcs := 1 }
      (some "/sif") ⟨fun _ => true, fun s => !s.data.isEmpty⟩ =
    .ok ["singularity", "run", "--bind", "/b:/b,/w:/w", "/sif"] := rfl

lemma ws_false_of_alnum {c : Char} (h : c.isAlphanum = true) :
    c.isWhitespace = false := by
  cases hw : c.isWhitespace with
  | false => rfl
  | true =>
    simp [Char.isWhitespace] at hw
    rcases hw with ((h3 | h3) | h3) | h3 <;> subst h3 <;> simp_all

lemma alnum_of_digit {c : Char} (h : c.isDigit = true) : c.isAlphanum = true := by
  simp [Char.isAlphanum, h]

lemma ws_false_of_digit {c : Char} (h : c.isDigit = true) :
    c.isWhitespace = false :=
  ws_false_of_alnum (alnum_of_digit h)

lemma bne_hyphen_of_alnum {c : Char} (h : c.isAlphanum = true) :
    (c != '-') = true := by
  rw [bne_iff_ne]
  intro hc
  subst hc
  simp at h

lemma ne_hyphen_of_alnum {c : Char} (h : c.isAlphanum = true) : c ≠ '-' := by
  intro hc
  subst hc
  simp at h

lemma ne_s_of_digit {c : Char} (h : c.isDigit = true) : c ≠ 's' := by
  intro hc
  subst hc
  simp at h

lemma isDigit_ofNat_add {d : Nat} (h : d < 10) :
    (Char.ofNat (48 + d)).isDigit = true := by
  interval_cases d <;> decide

lemma dropWhile_eq_self_of_head {p : Char → Bool} {l : List Char}
    (h : ∀ c, l.head? = some c → p c = false) : l.dropWhile p = l := by
  cases l with
  | nil => rfl
  | cons a t => rw [List.dropWhile_cons, h a rfl]; simp

lemma dropWhile_eq_self_of_all {p : Char → Bool} {l : List Char}
    (h : ∀ c ∈ l, p c = false) : l.dropWhile p = l := by
  refine dropWhile_eq_self_of_head (fun c hc => h c ?_)
  cases l with
  | nil => simp at hc
  | cons a t => simp at hc; subst hc; exact List.mem_cons_self a t

lemma head_dropWhile_false {p : Char → Bool} :
    ∀ {l : List Char} {c : Char}, (l.dropWhile p).head? = some c → p c = false := by
  intro l
  induction l with
  | nil => intro c hc; simp at hc
  | cons a t ih =>
    intro c hc
    rw [List.dropWhile_cons] at hc
    by_cases hp : p a = true
    · rw [if_pos hp] at hc
      exact ih hc
    · rw [if_neg hp] at hc
      simp at hc
      subst hc
      exact Bool.eq_false_iff.mpr hp

lemma takeWhile_eq_self_of_all {p : Char → Bool} {l : List Char}
    (h : ∀ c ∈ l, p c = true) : l.takeWhile p = l := by
  induction l with
  | nil => rfl
  | cons a t ih =>
    rw [List.takeWhile_cons, if_pos (h a (List.mem_cons_self a t))]
    rw [ih (fun c hc => h c (List.mem_cons_of_mem a hc))]

lemma mem_of_mem_dropWhile {p : Char → Bool} {l : List Char} {c : Char}
    (h : c ∈ l.dropWhile p) : c ∈ l :=
  (List.dropWhile_sublist p).subset h

lemma pyStripData_eq_self {l : List Char}
    (h : ∀ c ∈ l, c.isWhitespace = false) : pyStripData l = l := by
  unfold pyStripData dropTrailingWs
  rw [dropWhile_eq_self_of_all h]
  rw [dropWhile_eq_self_of_all (fun c hc => h c (List.mem_reverse.mp hc))]
  exact List.reverse_reverse l

lemma dropTrailingWs_prefix (l : List Char) :
    ∃ t, l = dropTrailingWs l ++ t := by
  refine ⟨(l.reverse.takeWhile Char.isWhitespace).reverse, ?_⟩
  unfold dropTrailingWs
  have h := List.takeWhile_append_dropWhile Char.isWhitespace l.reverse
  calc l = l.reverse.reverse := (List.reverse_reverse l).symm
    _ = (l.reverse.takeWhile Char.isWhitespace ++
          l.reverse.dropWhile Char.isWhitespace).reverse := by rw [h]
    _ = (l.reverse.dropWhile Char.isWhitespace).reverse ++
          (l.reverse.takeWhile Char.isWhitespace).reverse := by
        rw [List.reverse_append]

lemma dropTrailingWs_head {l : List Char} {c : Char}
    (h : (dropTrailingWs l).head? = some c) : l.head? = some c := by
  obtain ⟨t, ht⟩ := dropTrailingWs_prefix l
  rw [ht]
  cases hd : dropTrailingWs l with
  | nil => rw [hd] at h; simp at h
  | cons a r => rw [hd] at h; simp at h; simp [h]

lemma dropTrailingWs_idem (l : List Char) :
    dropTrailingWs (dropTrailingWs l) = dropTrailingWs l := by
  unfold dropTrailingWs
  rw [List.reverse_reverse]
  rw [dropWhile_eq_self_of_head (fun c hc => head_dropWhile_false hc)]

lemma pyStripData_idem (l : List Char) :
    pyStripData (pyStripData l) = pyStripData l := by
  unfold pyStripData
  rw [dropWhile_eq_self_of_head (fun c hc =>
    head_dropWhile_false (dropTrailingWs_head hc))]
  exact dropTrailingWs_idem _

lemma pyStrip_idem (s : String) : pyStrip (pyStrip s) = pyStrip s := by
  unfold pyStrip
  rw [pyStripData_idem]

lemma string_mk_data (s : String) : String.mk s.data = s := by
  cases s
  rfl

lemma zfill_data (w : Nat) (s : String) :
    (zfill w s).data = List.replicate (w - s.data.length) '0' ++ s.data := rfl

lemma zfill_eq_self_of_len {w : Nat} {s : String} (h : w ≤ s.data.length) :
    zfill w s = s := by
  unfold zfill
  rw [Nat.sub_eq_zero_of_le h]
  rw [List.replicate_zero, List.nil_append]

lemma two_le_zfill_two_len (s : String) : 2 ≤ (zfill 2 s).data.length := by
  rw [zfill_data, List.length_append, List.length_replicate]
  omega

lemma zfill_two_all_digit {s : String} (h : ∀ c ∈ s.data, c.isDigit = true) :
    ∀ c ∈ (zfill 2 s).data, c.isDigit = true := by
  intro c hc
  rw [zfill_data] at hc
  rcases List.mem_append.mp hc with hm | hm
  · rw [List.eq_of_mem_replicate hm]
    decide
  · exact h c hm

lemma natOfDigits_replicate_zero (k : Nat) (l : List Char) :
    natOfDigits (List.replicate k '0' ++ l) = natOfDigits l := by
  induction k with
  | zero => rfl
  | succ n ih =>
    rw [List.replicate_succ, List.cons_append]
    unfold natOfDigits at *
    simpa using ih

lemma natToDigitsAux_digits :
    ∀ (fuel n : Nat) (acc : List Char), (∀ c ∈ acc, c.isDigit = true) →
      ∀ c ∈ natToDigitsAux fuel n acc, c.isDigit = true := by
  intro fuel
  induction fuel with
  | zero => intro n acc hacc; exact hacc
  | succ f ih =>
    intro n acc hacc c hc
    unfold natToDigitsAux at hc
    by_cases hn : n < 10
    · rw [if_pos hn] at hc
      rcases List.mem_cons.mp hc with h | h
      · subst h; exact isDigit_ofNat_add hn
      · exact hacc c h
    · rw [if_neg hn] at hc
      refine ih (n / 10) _ ?_ c hc
      intro d hd
      rcases List.mem_cons.mp hd with h | h
      · subst h; exact isDigit_ofNat_add (Nat.mod_lt n (by omega))
      · exact hacc d h

lemma natToDigitsAux_nil :
    ∀ (fuel n : Nat) (acc : List Char), natToDigitsAux fuel n acc = [] → acc = [] := by
  intro fuel
  induction fuel with
  | zero => intro n acc h; exact h
  | succ f ih =>
    intro n acc h
    unfold natToDigitsAux at h
    by_cases hn : n < 10
    · rw [if_pos hn] at h
      simp at h
    · rw [if_neg hn] at h
      have := ih (n / 10) _ h
      simp at this

lemma pyStrOfNat_data_digits (n : Nat) :
    ∀ c ∈ (pyStrOfNat n).data, c.isDigit = true := by
  intro c hc
  exact natToDigitsAux_digits (n + 1) n [] (by simp) c hc

lemma pyStrOfNat_data_ne_nil (n : Nat) : (pyStrOfNat n).data ≠ [] := by
  intro h
  have h2 : natToDigitsAux (n + 1) n [] = [] := h
  unfold natToDigitsAux at h2
  by_cases hn : n < 10
  · rw [if_pos hn] at h2
    simp at h2
  · rw [if_neg hn] at h2
    have := natToDigitsAux_nil n (n / 10) _ h2
    simp at this

lemma startsWithSubData_append (l : List Char) :
    startsWithSubData ([ 's', 'u', 'b', '-'] ++ l) = true := rfl

lemma startsWithSubData_cons_false {c : Char} (h : c ≠ 's') (l : List Char) :
    startsWithSubData (c :: l) = false := by
  rcases l with _ | ⟨a, _ | ⟨b, _ | ⟨d, r⟩⟩⟩ <;> simp [startsWithSubData, h]

lemma stripSubData_append (l : List Char) :
    stripSubData ([ 's', 'u', 'b', '-'] ++ l) = l := by
  unfold stripSubData
  rw [if_pos (startsWithSubData_append l)]
  exact List.drop_left [ 's', 'u', 'b', '-'] l

lemma stripSubData_of_head_digit {c : Char} (h : c.isDigit = true)
    (l : List Char) : stripSubData (c :: l) = c :: l := by
  unfold stripSubData
  rw [startsWithSubData_cons_false (ne_s_of_digit h) l]
  simp

/-- Shape of every `sub-<core>` identifier the expander emits: a non-empty
alphanumeric core which, when it is all digits, has at least two digits
(it went through `zfill(2)`). -/
def goodCore (l : List Char) : Prop :=
  l ≠ [] ∧ (∀ c ∈ l, c.isAlphanum = true) ∧
    ((∀ c ∈ l, c.isDigit = true) → 2 ≤ l.length)

/-- A string is canonical for the expander: stripping, range matching and
single-token normalization all leave it alone. -/
def Canon (s : String) : Prop :=
  pyStrip s = s ∧ s.data ≠ [] ∧ matchRange s = none ∧
    normalize_one_subject_token s = .ok s

lemma head?_mem {l : List Char} {c : Char} (h : l.head? = some c) : c ∈ l := by
  cases l with
  | nil => simp at h
  | cons a t =>
    simp at h
    subst h
    exact List.mem_cons_self a t

lemma parseEndpointData_subcore (core : List Char) :
    parseEndpointData ('s' :: 'u' :: 'b' :: '-' :: core) =
      (if (core.takeWhile Char.isDigit).isEmpty then none
       else some ([ 's', 'u', 'b', '-'] ++ core.takeWhile Char.isDigit,
         core.dropWhile Char.isDigit)) := rfl

lemma parseEndpointData_nonsub {c : Char} (h : c ≠ 's') (l : List Char) :
    parseEndpointData (c :: l) =
      (if ((c :: l).takeWhile Char.isDigit).isEmpty then none
       else some ((c :: l).takeWhile Char.isDigit,
         (c :: l).dropWhile Char.isDigit)) := by
  unfold parseEndpointData
  rw [startsWithSubData_cons_false h l]
  simp

lemma matchRangeData_none_of_no_hyphen {l a rest : List Char}
    (hpe : parseEndpointData l = some (a, rest))
    (hr : ∀ ch, (rest.dropWhile Char.isWhitespace).head? = some ch → ch ≠ '-') :
    matchRangeData l = none := by
  have hm : matchRangeData l = rangeTail a rest := by
    unfold matchRangeData
    rw [hpe]
  rw [hm]
  unfold rangeTail
  cases hd : rest.dropWhile Char.isWhitespace with
  | nil => rfl
  | cons x xs =>
    have hx : x ≠ '-' := hr x (by rw [hd]; rfl)
    simp [hx]

lemma matchRangeData_subcore_none {core : List Char}
    (halnum : ∀ ch ∈ core, ch.isAlphanum = true) :
    matchRangeData ('s' :: 'u' :: 'b' :: '-' :: core) = none := by
  cases hds : (core.takeWhile Char.isDigit).isEmpty with
  | true =>
    have hpe : parseEndpointData ('s' :: 'u' :: 'b' :: '-' :: core) = none := by
      rw [parseEndpointData_subcore, hds]
      rfl
    unfold matchRangeData
    rw [hpe]
  | false =>
    have hpe : parseEndpointData ('s' :: 'u' :: 'b' :: '-' :: core) =
        some ([ 's', 'u', 'b', '-'] ++ core.takeWhile Char.isDigit,
          core.dropWhile Char.isDigit) := by
      rw [parseEndpointData_subcore, hds]
      rfl
    refine matchRangeData_none_of_no_hyphen hpe ?_
    intro ch hch
    have h1 : ch ∈ core.dropWhile Char.isDigit :=
      mem_of_mem_dropWhile (head?_mem hch)
    exact ne_hyphen_of_alnum (halnum ch (mem_of_mem_dropWhile h1))

lemma sub_append_data (c : String) :
    ("sub-" ++ c).data = 's' :: 'u' :: 'b' :: '-' :: c.data := by
  rw [String.data_append]
  rfl

lemma canon_subcore {c : String} (h : goodCore c.data) : Canon ("sub-" ++ c) := by
  obtain ⟨hne, halnum, hdig⟩ := h
  have hdata := sub_append_data c
  have hnws : ∀ ch ∈ ('s' :: 'u' :: 'b' :: '-' :: c.data), ch.isWhitespace = false := by
    intro ch hch
    simp only [List.mem_cons] at hch
    rcases hch with h1 | h1 | h1 | h1 | h1
    · subst h1; decide
    · subst h1; decide
    · subst h1; decide
    · subst h1; decide
    · exact ws_false_of_alnum (halnum ch h1)
  have hstrip : pyStrip ("sub-" ++ c) = "sub-" ++ c := by
    unfold pyStrip
    rw [hdata, pyStripData_eq_self hnws, ← hdata]
  have hmatch : matchRange ("sub-" ++ c) = none := by
    unfold matchRange
    rw [hdata, matchRangeData_subcore_none halnum]
  have hcore : stripSub ("sub-" ++ c) = c := by
    unfold stripSub
    rw [hdata]
    have h4 : ('s' :: 'u' :: 'b' :: '-' :: c.data) = [ 's', 'u', 'b', '-'] ++ c.data := rfl
    rw [h4, stripSubData_append]
  have hnonempty : ("sub-" ++ c).data ≠ [] := by
    rw [hdata]
    simp
  refine ⟨hstrip, hnonempty, hmatch, ?_⟩
  unfold normalize_one_subject_token
  rw [hstrip, hcore]
  rw [if_neg (by rw [hdata]; simp)]
  cases hd : isDigitStr c with
  | true =>
    rw [if_pos rfl]
    have hlen : 2 ≤ c.data.length := by
      refine hdig ?_
      unfold isDigitStr at hd
      simp [List.all_eq_true] at hd
      exact fun ch hch => hd.2 ch hch
    rw [zfill_eq_self_of_len hlen]
  | false =>
    rw [if_neg (by simp)]
    have ha : isAlnumStr c = true := by
      unfold isAlnumStr
      simp [List.all_eq_true, List.isEmpty_iff, hne]
      exact halnum
    rw [if_pos ha]

lemma goodCore_zfill_digits {s : String}
    (hdig : ∀ c ∈ s.data, c.isDigit = true) : goodCore (zfill 2 s).data := by
  refine ⟨?_, ?_, ?_⟩
  · intro h
    have := two_le_zfill_two_len s
    rw [h] at this
    simp at this
  · exact fun c hc => alnum_of_digit (zfill_two_all_digit hdig c hc)
  · intro _
    exact two_le_zfill_two_len s

lemma canon_norm_output {t s : String}
    (h : normalize_one_subject_token t = .ok s) : Canon s := by
  unfold normalize_one_subject_token at h
  by_cases h1 : (pyStrip t).data.isEmpty = true
  · rw [if_pos h1] at h
    exact absurd h (by simp)
  · rw [if_neg h1] at h
    cases h2 : isDigitStr (stripSub (pyStrip t)) with
    | true =>
      rw [if_pos h2] at h
      injection h with h3
      rw [← h3]
      refine canon_subcore (goodCore_zfill_digits ?_)
      unfold isDigitStr at h2
      simp [List.all_eq_true] at h2
      exact h2.2
    | false =>
      rw [if_neg (by simp [h2])] at h
      cases h3 : isAlnumStr (stripSub (pyStrip t)) with
      | true =>
        rw [if_pos h3] at h
        injection h with h4
        rw [← h4]
        unfold isAlnumStr at h3
        simp [List.all_eq_true, List.isEmpty_iff] at h3
        refine canon_subcore ⟨h3.1, h3.2, ?_⟩
        intro hall
        exfalso
        unfold isDigitStr at h2
        simp [List.all_eq_true, List.isEmpty_iff] at h2
        obtain ⟨c, hc, hcd⟩ := h2 h3.1
        exact absurd (hall c hc) (by simp [hcd])
      | false =>
        rw [if_neg (by simp [h3])] at h
        exact absurd h (by simp)

lemma canon_walk_elem (n : Nat) : Canon ("sub-" ++ zfill 2 (pyStrOfNat n)) :=
  canon_subcore (goodCore_zfill_digits (pyStrOfNat_data_digits n))

lemma expandToken_canon {t : String} {xs : List String}
    (h : expandToken t = .ok xs) : ∀ s ∈ xs, Canon s := by
  unfold expandToken at h
  split at h
  next araw braw heq =>
    split at h
    next e ha => exact absurd h (by simp)
    next anorm ha =>
      split at h
      next e hb => exact absurd h (by simp)
      next bnorm hb =>
        injection h with h1
        intro s hs
        rw [← h1] at hs
        simp only [List.mem_map] at hs
        obtain ⟨n, _, hfn⟩ := hs
        rw [← hfn]
        exact canon_walk_elem n
  next heq =>
    split at h
    next e hn => exact absurd h (by simp)
    next s0 hn =>
      injection h with h1
      intro s hs
      rw [← h1] at hs
      simp at hs
      subst hs
      exact canon_norm_output hn

lemma expandAll_canon : ∀ {toks l : List String},
    expandAll toks = .ok l → ∀ s ∈ l, Canon s := by
  intro toks
  induction toks with
  | nil =>
    intro l h
    injection h with h1
    rw [← h1]
    simp
  | cons tok rest ih =>
    intro l h
    unfold expandAll at h
    by_cases hemp : (pyStrip tok).data.isEmpty = true
    · rw [if_pos hemp] at h
      exact ih h
    · rw [if_neg hemp] at h
      split at h
      next e he => exact absurd h (by simp)
      next xs hx =>
        split at h
        next e he => exact absurd h (by simp)
        next ys hy =>
          injection h with h1
          intro s hs
          rw [← h1] at hs
          rcases List.mem_append.mp hs with hm | hm
          · exact expandToken_canon hx s hm
          · exact ih hy s hm

lemma expandToken_canon_fixed {s : String} (h : Canon s) : expandToken s = .ok [s] := by
  obtain ⟨hstrip, hne, hmatch, hnorm⟩ := h
  unfold expandToken
  rw [hmatch, hnorm]

lemma expandAll_canon_fixed : ∀ {l : List String},
    (∀ s ∈ l, Canon s) → expandAll l = .ok l := by
  intro l
  induction l with
  | nil => intro _; rfl
  | cons s rest ih =>
    intro h
    have hs := h s (List.mem_cons_self s rest)
    obtain ⟨hstrip, hne, hmatch, hnorm⟩ := hs
    unfold expandAll
    rw [hstrip]
    rw [if_neg (by simp [List.isEmpty_iff, hne])]
    rw [expandToken_canon_fixed ⟨hstrip, hne, hmatch, hnorm⟩]
    rw [ih (fun x hx => h x (List.mem_cons_of_mem s hx))]
    rfl

lemma dedupAcc_subset {l : List String} : ∀ {seen s}, s ∈ dedupAcc seen l → s ∈ l := by
  induction l with
  | nil =>
    intro seen s h
    simp [dedupAcc] at h
  | cons a rest ih =>
    intro seen s h
    unfold dedupAcc at h
    by_cases ha : a ∈ seen
    · rw [if_pos ha] at h
      exact List.mem_cons_of_mem a (ih h)
    · rw [if_neg ha] at h
      rcases List.mem_cons.mp h with h1 | h1
      · subst h1
        exact List.mem_cons_self s rest
      · exact List.mem_cons_of_mem a (ih h1)

lemma dedupAcc_not_mem_seen {l : List String} :
    ∀ {seen s}, s ∈ dedupAcc seen l → s ∉ seen := by
  induction l with
  | nil =>
    intro seen s h
    simp [dedupAcc] at h
  | cons a rest ih =>
    intro seen s h
    unfold dedupAcc at h
    by_cases ha : a ∈ seen
    · rw [if_pos ha] at h
      exact ih h
    · rw [if_neg ha] at h
      rcases List.mem_cons.mp h with h1 | h1
      · subst h1
        exact ha
      · intro hmem
        exact ih h1 (List.mem_cons_of_mem a hmem)

lemma dedupAcc_nodup {l : List String} : ∀ {seen}, (dedupAcc seen l).Nodup := by
  induction l with
  | nil =>
    intro seen
    simp [dedupAcc]
  | cons a rest ih =>
    intro seen
    unfold dedupAcc
    by_cases ha : a ∈ seen
    · rw [if_pos ha]
      exact ih
    · rw [if_neg ha]
      refine List.nodup_cons.mpr ⟨?_, ih⟩
      intro hmem
      exact (dedupAcc_not_mem_seen hmem) (List.mem_cons_self a seen)

lemma dedupAcc_fixed {l : List String} : ∀ {seen}, l.Nodup → (∀ s ∈ l, s ∉ seen) →
    dedupAcc seen l = l := by
  induction l with
  | nil =>
    intro seen _ _
    rfl
  | cons a rest ih =>
    intro seen hnd hdisj
    unfold dedupAcc
    rw [if_neg (hdisj a (List.mem_cons_self a rest))]
    congr 1
    refine ih (List.nodup_cons.mp hnd).2 ?_
    intro s hs hmem
    rcases List.mem_cons.mp hmem with h1 | h1
    · subst h1
      exact (List.nodup_cons.mp hnd).1 hs
    · exact hdisj s (List.mem_cons_of_mem a hs) h1

lemma bne_hyphen_of_digit {c : Char} (h : c.isDigit = true) : (c != '-') = true :=
  bne_hyphen_of_alnum (alnum_of_digit h)

lemma parseEndpointData_shape {l e r : List Char}
    (h : parseEndpointData l = some (e, r)) :
    ∃ ds, ds ≠ [] ∧ (∀ c ∈ ds, c.isDigit = true) ∧
      (e = [ 's', 'u', 'b', '-'] ++ ds ∨ e = ds) := by
  unfold parseEndpointData at h
  by_cases hs : startsWithSubData l = true
  · rw [if_pos hs] at h
    by_cases hemp : ((l.drop 4).takeWhile Char.isDigit).isEmpty = true
    · rw [if_pos hemp] at h
      exact absurd h (by simp)
    · rw [if_neg hemp] at h
      refine ⟨(l.drop 4).takeWhile Char.isDigit,
        by simpa [List.isEmpty_iff] using hemp,
        fun c hc => List.mem_takeWhile_imp hc, Or.inl ?_⟩
      injection h with h1
      exact (congrArg Prod.fst h1).symm
  · rw [if_neg hs] at h
    by_cases hemp : (l.takeWhile Char.isDigit).isEmpty = true
    · rw [if_pos hemp] at h
      exact absurd h (by simp)
    · rw [if_neg hemp] at h
      refine ⟨l.takeWhile Char.isDigit,
        by simpa [List.isEmpty_iff] using hemp,
        fun c hc => List.mem_takeWhile_imp hc, Or.inr ?_⟩
      injection h with h1
      exact (congrArg Prod.fst h1).symm

lemma normalize_digit_run {ds : List Char} (hne : ds ≠ [])
    (hdig : ∀ c ∈ ds, c.isDigit = true) :
    normalize_one_subject_token (String.mk ds) =
      .ok ("sub-" ++ zfill 2 (String.mk ds)) := by
  have hstrip : pyStrip (String.mk ds) = String.mk ds := by
    unfold pyStrip
    rw [show (String.mk ds).data = ds from rfl,
      pyStripData_eq_self (fun c hc => ws_false_of_digit (hdig c hc))]
  have hss : stripSub (String.mk ds) = String.mk ds := by
    unfold stripSub
    cases ds with
    | nil => simp at hne
    | cons c t =>
      rw [show (String.mk (c :: t)).data = c :: t from rfl,
        stripSubData_of_head_digit (hdig c (List.mem_cons_self c t)) t]
  unfold normalize_one_subject_token
  rw [hstrip, hss]
  rw [if_neg (by simp [List.isEmpty_iff, hne])]
  rw [if_pos (show isDigitStr (String.mk ds) = true by
    unfold isDigitStr
    simp [List.isEmpty_iff, hne, List.all_eq_true]
    exact hdig)]

lemma normalize_sub_digit_run {ds : List Char} (hne : ds ≠ [])
    (hdig : ∀ c ∈ ds, c.isDigit = true) :
    normalize_one_subject_token (String.mk ([ 's', 'u', 'b', '-'] ++ ds)) =
      .ok ("sub-" ++ zfill 2 (String.mk ds)) := by
  have hnws : ∀ c ∈ ([ 's', 'u', 'b', '-'] ++ ds), c.isWhitespace = false := by
    intro c hc
    rcases List.mem_append.mp hc with hm | hm
    · simp at hm
      rcases hm with h1 | h1 | h1 | h1 <;> subst h1 <;> decide
    · exact ws_false_of_digit (hdig c hm)
  have hstrip : pyStrip (String.mk ([ 's', 'u', 'b', '-'] ++ ds)) =
      String.mk ([ 's', 'u', 'b', '-'] ++ ds) := by
    unfold pyStrip
    rw [show (String.mk ([ 's', 'u', 'b', '-'] ++ ds)).data =
      [ 's', 'u', 'b', '-'] ++ ds from rfl, pyStripData_eq_self hnws]
  have hss : stripSub (String.mk ([ 's', 'u', 'b', '-'] ++ ds)) = String.mk ds := by
    unfold stripSub
    rw [show (String.mk ([ 's', 'u', 'b', '-'] ++ ds)).data =
      [ 's', 'u', 'b', '-'] ++ ds from rfl, stripSubData_append]
  unfold normalize_one_subject_token
  rw [hstrip, hss]
  rw [if_neg (by simp [List.isEmpty_iff])]
  rw [if_pos (show isDigitStr (String.mk ds) = true by
    unfold isDigitStr
    simp [List.isEmpty_iff, hne, List.all_eq_true]
    exact hdig)]

lemma secondFieldNum_norm (ds : List Char)
    (hd : ∀ ch ∈ ds, ch.isDigit = true) :
    secondFieldNum ("sub-" ++ zfill 2 (String.mk ds)) = natOfDigits ds := by
  unfold secondFieldNum
  rw [sub_append_data]
  unfold secondFieldData
  have h1 : ('s' :: 'u' :: 'b' :: '-' :: (zfill 2 (String.mk ds)).data).dropWhile
      (fun ch => ch != '-') = '-' :: (zfill 2 (String.mk ds)).data := rfl
  rw [h1]
  rw [show ('-' :: (zfill 2 (String.mk ds)).data).drop 1 =
    (zfill 2 (String.mk ds)).data from rfl]
  rw [takeWhile_eq_self_of_all (fun ch hch =>
    bne_hyphen_of_digit (zfill_two_all_digit hd ch hch))]
  rw [zfill_data, natOfDigits_replicate_zero]

lemma endpointVal_sub (ds : List Char) :
    endpointVal (String.mk ([ 's', 'u', 'b', '-'] ++ ds)) = natOfDigits ds := by
  unfold endpointVal
  rw [show (String.mk ([ 's', 'u', 'b', '-'] ++ ds)).data =
    [ 's', 'u', 'b', '-'] ++ ds from rfl, stripSubData_append]

lemma endpointVal_bare {ds : List Char} (hne : ds ≠ [])
    (hdig : ∀ c ∈ ds, c.isDigit = true) :
    endpointVal (String.mk ds) = natOfDigits ds := by
  unfold endpointVal
  cases ds with
  | nil => simp at hne
  | cons c t =>
    rw [show (String.mk (c :: t)).data = c :: t from rfl,
      stripSubData_of_head_digit (hdig c (List.mem_cons_self c t)) t]

lemma matchRangeData_inv {l adata bdata : List Char}
    (h : matchRangeData l = some (adata, bdata)) :
    (∃ r, parseEndpointData l = some (adata, r)) ∧
      ∃ l2, parseEndpointData l2 = some (bdata, []) := by
  unfold matchRangeData at h
  split at h
  · exact absurd h (by simp)
  next a0 rest hp =>
    unfold rangeTail at h
    split at h
    · exact absurd h (by simp)
    next c rest2 hd =>
      split at h
      · unfold rangeFin at h
        split at h
        · exact absurd h (by simp)
        next b0 rest3 hp2 =>
          split at h
          next hemp =>
            injection h with h1
            have ha : a0 = adata := congrArg Prod.fst h1
            have hb : b0 = bdata := congrArg Prod.snd h1
            constructor
            · exact ⟨rest, ha ▸ hp⟩
            · refine ⟨rest2.dropWhile Char.isWhitespace, ?_⟩
              rw [hp2, hb, List.isEmpty_iff.mp hemp]
          · exact absurd h (by simp)
      · exact absurd h (by simp)

lemma expandToken_range {t a b : String}
    (h : matchRange t = some (a, b)) :
    expandToken t = .ok ((walkRange (endpointVal a) (endpointVal b)).map
      (fun n => "sub-" ++ zfill 2 (pyStrOfNat n))) := by
  have hMR := h
  unfold matchRange at hMR
  split at hMR
  · exact absurd hMR (by simp)
  next adata bdata hm =>
    injection hMR with h1
    have hda : String.mk adata = a := congrArg Prod.fst h1
    have hdb : String.mk bdata = b := congrArg Prod.snd h1
    obtain ⟨⟨ra, hpa⟩, ⟨l2, hpb⟩⟩ := matchRangeData_inv hm
    obtain ⟨dsa, hane, hadig, hashape⟩ := parseEndpointData_shape hpa
    obtain ⟨dsb, hbne, hbdig, hbshape⟩ := parseEndpointData_shape hpb
    have hna : normalize_one_subject_token a =
        .ok ("sub-" ++ zfill 2 (String.mk dsa)) := by
      rw [← hda]
      rcases hashape with hsh | hsh
      · rw [hsh]
        exact normalize_sub_digit_run hane hadig
      · rw [hsh]
        exact normalize_digit_run hane hadig
    have hnb : normalize_one_subject_token b =
        .ok ("sub-" ++ zfill 2 (String.mk dsb)) := by
      rw [← hdb]
      rcases hbshape with hsh | hsh
      · rw [hsh]
        exact normalize_sub_digit_run hbne hbdig
      · rw [hsh]
        exact normalize_digit_run hbne hbdig
    have hva : endpointVal a = natOfDigits dsa := by
      rw [← hda]
      rcases hashape with hsh | hsh
      · rw [hsh]
        exact endpointVal_sub dsa
      · rw [hsh]
        exact endpointVal_bare hane hadig
    have hvb : endpointVal b = natOfDigits dsb := by
      rw [← hdb]
      rcases hbshape with hsh | hsh
      · rw [hsh]
        exact endpointVal_sub dsb
      · rw [hsh]
        exact endpointVal_bare hbne hbdig
    unfold expandToken
    rw [h]
    show (match normalize_one_subject_token a with
      | Except.error e => Except.error e
      | Except.ok anorm =>
        match normalize_one_subject_token b with
        | Except.error e => Except.error e
        | Except.ok bnorm =>
          Except.ok ((walkRange (secondFieldNum anorm) (secondFieldNum bnorm)).map
            (fun n => "sub-" ++ zfill 2 (pyStrOfNat n)))) = _
    rw [hna, hnb]
    show Except.ok ((walkRange (secondFieldNum ("sub-" ++ zfill 2 (String.mk dsa)))
        (secondFieldNum ("sub-" ++ zfill 2 (String.mk dsb)))).map
        (fun n => "sub-" ++ zfill 2 (pyStrOfNat n))) =
      Except.ok ((walkRange (endpointVal a) (endpointVal b)).map
        (fun n => "sub-" ++ zfill 2 (pyStrOfNat n)))
    rw [secondFieldNum_norm dsa hadig, secondFieldNum_norm dsb hbdig, hva, hvb]

/-- First-occurrence de-duplication as the specification words it: keep
each element and delete its later duplicates.  This is the spec-side
counterpart of the implementation's `seen`-set loop `dedupAcc`. -/
def specFirstOccurrenceDedup : List String → List String
  | [] => []
  | s :: rest => s :: (specFirstOccurrenceDedup rest).filter (fun x => x != s)

lemma dedupAcc_eq_filter {l : List String} :
    ∀ seen, dedupAcc seen l =
      (specFirstOccurrenceDedup l).filter (fun x => !decide (x ∈ seen)) := by
  induction l with
  | nil => intro seen; rfl
  | cons s rest ih =>
    intro seen
    unfold dedupAcc specFirstOccurrenceDedup
    by_cases hs : s ∈ seen
    · rw [if_pos hs]
      rw [List.filter_cons, if_neg (by simp [hs]), List.filter_filter]
      refine (ih seen).trans (List.filter_congr ?_)
      intro x hx
      by_cases hxs : x ∈ seen
      · simp [hxs]
      · have hne : x ≠ s := fun he => hxs (he ▸ hs)
        simp [hxs, hne]
    · rw [if_neg hs]
      rw [List.filter_cons, if_pos (by simp [hs])]
      congr 1
      rw [ih (s :: seen), List.filter_filter]
      refine List.filter_congr ?_
      intro x hx
      by_cases hxs : x = s
      · subst hxs
        simp
      · by_cases hxm : x ∈ seen
        · simp [List.mem_cons, hxs, hxm]
        · simp [List.mem_cons, hxs, hxm]

lemma dedupAcc_nil_eq_spec (l : List String) :
    dedupAcc [] l = specFirstOccurrenceDedup l := by
  rw [dedupAcc_eq_filter []]
  rw [List.filter_congr (fun x _ => by simp : ∀ x ∈ specFirstOccurrenceDedup l,
    (!decide (x ∈ ([] : List String))) = (fun _ => true) x)]
  exact List.filter_true _

lemma normalize_strip (tok : String) :
    normalize_one_subject_token (pyStrip tok) = normalize_one_subject_token tok := by
  unfold normalize_one_subject_token
  rw [pyStrip_idem]

lemma normalize_no_empty_error {t : String} (hstrip : pyStrip t = t)
    (hne : t.data ≠ []) :
    normalize_one_subject_token t ≠ .error .emptyToken := by
  unfold normalize_one_subject_token
  rw [hstrip]
  rw [if_neg (by simp [List.isEmpty_iff, hne])]
  by_cases hd : isDigitStr (stripSub t) = true
  · rw [if_pos hd]
    simp
  · rw [if_neg hd]
    by_cases ha : isAlnumStr (stripSub t) = true
    · rw [if_pos ha]
      simp
    · rw [if_neg ha]
      simp

lemma expandToken_no_empty_error {t : String} (hstrip : pyStrip t = t)
    (hne : t.data ≠ []) : expandToken t ≠ .error .emptyToken := by
  cases hm : matchRange t with
  | some p =>
    obtain ⟨a, b⟩ := p
    rw [expandToken_range hm]
    simp
  | none =>
    unfold expandToken
    rw [hm]
    show (match normalize_one_subject_token t with
      | Except.error e => Except.error e
      | Except.ok s => Except.ok [s]) ≠ Except.error SubjectError.emptyToken
    cases hn : normalize_one_subject_token t with
    | error e =>
      have hee : e ≠ .emptyToken := by
        intro he
        subst he
        exact normalize_no_empty_error hstrip hne hn
      simp [hee]
    | ok s => simp

lemma expandAll_no_empty_error : ∀ {toks : List String},
    expandAll toks ≠ .error SubjectError.emptyToken := by
  intro toks
  induction toks with
  | nil => simp [expandAll]
  | cons tok rest ih =>
    unfold expandAll
    by_cases hemp : (pyStrip tok).data.isEmpty = true
    · rw [if_pos hemp]
      exact ih
    · rw [if_neg hemp]
      intro h
      split at h
      next e hx =>
        injection h with h1
        subst h1
        exact expandToken_no_empty_error (pyStrip_idem tok)
          (by simpa [List.isEmpty_iff] using hemp) hx
      next xs hx =>
        split at h
        next e hy =>
          injection h with h1
          subst h1
          exact ih hy
        next ys hy => exact absurd h (by simp)

lemma expand_single_eval {tok s : String} (hne : (pyStrip tok).data ≠ [])
    (hnr : matchRange (pyStrip tok) = none)
    (hn : normalize_one_subject_token tok = .ok s) :
    expand_subject_tokens [tok] = .ok [s] := by
  unfold expand_subject_tokens expandAll
  rw [if_neg (by simp [List.isEmpty_iff, hne])]
  unfold expandToken
  rw [hnr, normalize_strip, hn]
  rfl

lemma expand_single_error {tok : String} {e : SubjectError}
    (hne : (pyStrip tok).data ≠ [])
    (hnr : matchRange (pyStrip tok) = none)
    (hn : normalize_one_subject_token tok = .error e) :
    expand_subject_tokens [tok] = .error e := by
  unfold expand_subject_tokens expandAll
  rw [if_neg (by simp [List.isEmpty_iff, hne])]
  unfold expandToken
  rw [hnr, normalize_strip, hn]

lemma expand_skip {tok : String} (h : pyStripData tok.data = [])
    (tokens : List String) :
    expand_subject_tokens (tok :: tokens) = expand_subject_tokens tokens := by
  have h2 : expandAll (tok :: tokens) = expandAll tokens := by
    conv_lhs => unfold expandAll
    rw [if_pos (by simp [pyStrip, h, List.isEmpty_iff])]
  unfold expand_subject_tokens
  rw [h2]

lemma add_common_flags_shape (cmd : List String) (o : InvocationOptions) :
    ∃ t, add_common_flags cmd o = cmd ++ t := by
  unfold add_common_flags
  exact ⟨_, List.append_assoc _ _ _⟩

lemma advanced_ok_inv {cmd c : List String} {o : InvocationOptions} {fs : Fs}
    (h : add_halfpipe_advanced_flags cmd o fs = .ok c) :
    fs.isDir o.workdir = true ∧ ∃ t, c = cmd ++ t := by
  unfold add_halfpipe_advanced_flags at h
  by_cases hw : fs.isDir o.workdir = true
  · rw [if_pos hw] at h
    injection h with h1
    exact ⟨hw, _, by rw [← h1, List.append_assoc]⟩
  · rw [if_neg hw] at h
    exact absurd h (by simp)

lemma advanced_err {cmd : List String} {o : InvocationOptions} {fs : Fs}
    (h : fs.isDir o.workdir = false) :
    add_halfpipe_advanced_flags cmd o fs =
      .error (.workdirNotADirectory o.workdir) := by
  unfold add_halfpipe_advanced_flags
  rw [if_neg (by simp [h])]

lemma foldl_pairs_shape (flag : String) : ∀ (l : List String) (cmd : List String),
    ∃ t, l.foldl (fun c s => c ++ [flag, s]) cmd = cmd ++ t := by
  intro l
  induction l with
  | nil =>
    intro cmd
    exact ⟨[], by simp⟩
  | cons s rest ih =>
    intro cmd
    obtain ⟨t, ht⟩ := ih (cmd ++ [flag, s])
    refine ⟨[flag, s] ++ t, ?_⟩
    rw [List.foldl_cons, ht, List.append_assoc]

lemma addSubjectList_ok_shape {cmd c : List String} {flag : String}
    {toks : Option (List String)} (h : addSubjectList cmd flag toks = .ok c) :
    ∃ t, c = cmd ++ t := by
  unfold addSubjectList at h
  split at h
  · injection h with h1
    exact ⟨[], by rw [← h1, List.append_nil]⟩
  next l =>
    split at h
    · injection h with h1
      exact ⟨[], by rw [← h1, List.append_nil]⟩
    · split at h
      · exact absurd h (by simp)
      next subs hsub =>
        injection h with h1
        obtain ⟨t, ht⟩ := foldl_pairs_shape flag subs cmd
        exact ⟨t, by rw [← h1, ht]⟩

lemma add_subject_flags_ok_shape {cmd c : List String} {o : InvocationOptions}
    (h : add_subject_flags cmd o = .ok c) : ∃ t, c = cmd ++ t := by
  unfold add_subject_flags at h
  split at h
  · exact absurd h (by simp)
  next c2 h2 =>
    obtain ⟨t1, ht1⟩ := addSubjectList_ok_shape h2
    obtain ⟨t2, ht2⟩ := addSubjectList_ok_shape h
    exact ⟨t1 ++ t2, by rw [ht2, ht1, List.append_assoc]⟩

lemma execChunk_ok_inv {o : InvocationOptions} {fs : Fs} {sif : String}
    {binds c : List String} (h : execChunk o fs sif binds = .ok c) :
    fs.isDir o.workdir = true ∧ ∃ t, c = baseExec sif binds ++ t := by
  unfold execChunk at h
  split at h
  · exact absurd h (by simp)
  next c2 h2 =>
    obtain ⟨hw, t1, ht1⟩ := advanced_ok_inv h2
    split at h
    · exact absurd h (by simp)
    next c3 h3 =>
      obtain ⟨t2, ht2⟩ := add_subject_flags_ok_shape h3
      injection h with h1
      obtain ⟨t0, ht0⟩ := add_common_flags_shape (baseExec sif binds) o
      refine ⟨hw, t0 ++ t1 ++ (t2 ++ ["--nipype-n-procs", pyStrOfNat o.nProcs]), ?_⟩
      rw [← h1, ht2, ht1, ht0]
      simp [List.append_assoc]

lemma buildTail_ok_inv {o : InvocationOptions} {fs : Fs} {sif : String}
    {binds c : List String} (h : buildTail o fs sif binds = .ok c) :
    (o.mode = .uiOld ∧ ∃ t, c = baseRun sif binds ++ t) ∨
      (fs.isDir o.workdir = true ∧ ∃ t, c = baseExec sif binds ++ t) := by
  unfold buildTail at h
  split at h
  next hm =>
    injection h with h1
    obtain ⟨t, ht⟩ := add_common_flags_shape (baseRun sif binds) o
    exact Or.inl ⟨hm, t, by rw [← h1, ht]⟩
  next hm =>
    obtain ⟨hw, t, ht⟩ := execChunk_ok_inv h
    exact Or.inr ⟨hw, t, ht⟩
  next hm =>
    split at h
    · exact absurd h (by simp)
    next c0 hc0 =>
      obtain ⟨hw, t, ht⟩ := execChunk_ok_inv hc0
      injection h with h1
      exact Or.inr ⟨hw, t ++ ["--only-model-chunk"], by
        rw [← h1, ht, List.append_assoc]⟩
  next hm =>
    split at h
    · exact absurd h (by simp)
    next d hd =>
      split at h
      · exact absurd h (by simp)
      · split at h
        · exact absurd h (by simp)
        next c0 hc0 =>
          obtain ⟨hw, t, ht⟩ := execChunk_ok_inv hc0
          injection h with h1
          exact Or.inr ⟨hw, t ++ ["group-level", "--input-directory", d], by
            rw [← h1, ht, List.append_assoc]⟩

lemma mkBinds_none {o : InvocationOptions} {fs : Fs} (h : o.seeddir = none) :
    mkBinds o fs =
      .ok [o.bidsdir ++ ":" ++ o.bidsdir, o.workdir ++ ":" ++ o.workdir] := by
  unfold mkBinds
  split
  · rfl
  next sd heq =>
    rw [h] at heq
    exact absurd heq (by simp)

lemma mkBinds_empty {o : InvocationOptions} {fs : Fs} {s : String}
    (h : o.seeddir = some s) (he : s.data = []) :
    mkBinds o fs =
      .ok [o.bidsdir ++ ":" ++ o.bidsdir, o.workdir ++ ":" ++ o.workdir] := by
  unfold mkBinds
  split
  next heq =>
    rw [h] at heq
  next sd heq =>
    rw [h] at heq
    injection heq with heq1
    subst heq1
    rw [if_pos (by simp [List.isEmpty_iff, he])]

lemma mkBinds_seed {o : InvocationOptions} {fs : Fs} {s : String}
    (h : o.seeddir = some s) (hne : s.data ≠ []) (hd : fs.isDir s = true) :
    mkBinds o fs =
      .ok [o.bidsdir ++ ":" ++ o.bidsdir, o.workdir ++ ":" ++ o.workdir,
        s ++ ":" ++ s] := by
  unfold mkBinds
  split
  next heq =>
    rw [h] at heq
    exact absurd heq (by simp)
  next sd heq =>
    rw [h] at heq
    injection heq with heq1
    subst heq1
    rw [if_neg (by simp [List.isEmpty_iff, hne]), if_pos hd]

lemma mkBinds_err {o : InvocationOptions} {fs : Fs} {s : String}
    (h : o.seeddir = some s) (hne : s.data ≠ []) (hd : fs.isDir s = false) :
    mkBinds o fs = .error (.invalidSeedDirectory s) := by
  unfold mkBinds
  split
  next heq =>
    rw [h] at heq
    exact absurd heq (by simp)
  next sd heq =>
    rw [h] at heq
    injection heq with heq1
    subst heq1
    rw [if_neg (by simp [List.isEmpty_iff, hne]), if_neg (by simp [hd])]

lemma mkBinds_ok_of_seedOk {o : InvocationOptions} {fs : Fs}
    (h : seedOk o fs) : ∃ binds, mkBinds o fs = .ok binds := by
  cases hs : o.seeddir with
  | none => exact ⟨_, mkBinds_none hs⟩
  | some s =>
    rcases h s hs with he | hd
    · exact ⟨_, mkBinds_empty hs he⟩
    · by_cases he : s.data = []
      · exact ⟨_, mkBinds_empty hs he⟩
      · exact ⟨_, mkBinds_seed hs he hd⟩

lemma build_eval_env {o : InvocationOptions} {env : Option String} {fs : Fs}
    {sif : String} (he : env = some sif) (h1 : sif.data ≠ [])
    (h2 : fs.pathExists sif = true) :
    build_command o env fs =
      (match mkBinds o fs with
       | .error e => .error e
       | .ok binds => buildTail o fs sif binds) := by
  unfold build_command
  rw [he]
  show (if sif.data.isEmpty then Except.error BuildError.missingEnvironment
    else if !fs.pathExists sif then Except.error BuildError.missingEnvironment
    else match mkBinds o fs with
      | .error e => .error e
      | .ok binds => buildTail o fs sif binds) = _
  rw [if_neg (by simp [List.isEmpty_iff, h1]), if_neg (by simp [h2])]

lemma build_ok_inv {o : InvocationOptions} {env : Option String} {fs : Fs}
    {c : List String} (h : build_command o env fs = .ok c) :
    ∃ sif binds, env = some sif ∧ sif.data ≠ [] ∧ fs.pathExists sif = true ∧
      mkBinds o fs = .ok binds ∧ buildTail o fs sif binds = .ok c := by
  unfold build_command at h
  split at h
  · exact absurd h (by simp)
  next sif =>
    by_cases h1 : sif.data.isEmpty = true
    · rw [if_pos h1] at h
      exact absurd h (by simp)
    · rw [if_neg h1] at h
      by_cases h2 : (!fs.pathExists sif) = true
      · rw [if_pos h2] at h
        exact absurd h (by simp)
      · rw [if_neg h2] at h
        split at h
        · exact absurd h (by simp)
        next binds hb =>
          exact ⟨sif, binds, rfl, by simpa [List.isEmpty_iff] using h1,
            by simpa using h2, hb, h⟩

lemma buildTail_group_no_input {o : InvocationOptions} {fs : Fs} {sif : String}
    {binds : List String} (hm : o.mode = .groupLevel)
    (hin : o.inputDirectory = none) :
    buildTail o fs sif binds = .error .missingRequiredOption := by
  unfold buildTail
  rw [hm]
  show (match o.inputDirectory with
    | none => Except.error BuildError.missingRequiredOption
    | some d =>
      if d.data.isEmpty then Except.error BuildError.missingRequiredOption
      else
        match execChunk o fs sif binds with
        | .error e => .error e
        | .ok c => .ok (c ++ ["group-level", "--input-directory", d])) =
    Except.error BuildError.missingRequiredOption
  rw [hin]

lemma buildTail_uiOld {o : InvocationOptions} {fs : Fs} {sif : String}
    {binds : List String} (hm : o.mode = .uiOld) :
    buildTail o fs sif binds = .ok (add_common_flags (baseRun sif binds) o) := by
  unfold buildTail
  rw [hm]

lemma baseRun_append_get3 (sif : String) (binds t : List String) :
    (baseRun sif binds ++ t)[3]? = some (String.intercalate "," binds) := rfl

lemma baseExec_append_get3 (sif : String) (binds t : List String) :
    (baseExec sif binds ++ t)[3]? = some (String.intercalate "," binds) := rfl

/-- Claim C1: for every token matched by the range grammar, `expand` emits
the inclusive integer walk from the first endpoint's numeric value to the
second's, stepping upward when ascending and downward when descending
(equal endpoints give one element), each value formatted as `sub-` plus
the value zero-padded to minimum width 2; in particular
`expand(["01-03"]) = ["sub-01","sub-02","sub-03"]` and
`expand(["03-01"]) = ["sub-03","sub-02","sub-01"]`. -/
theorem range_tokens_expand_to_walk :
    (∀ t a b : String, matchRange t = some (a, b) →
      expandToken t = .ok ((walkRange (endpointVal a) (endpointVal b)).map
        (fun n => "sub-" ++ zfill 2 (pyStrOfNat n)))) ∧
    expand_subject_tokens ["01-03"] = .ok ["sub-01", "sub-02", "sub-03"] ∧
    expand_subject_tokens ["03-01"] = .ok ["sub-03", "sub-02", "sub-01"] :=
  ⟨fun _ _ _ h => expandToken_range h, rfl, rfl⟩

/-- Witness for C1 at the token `"01-03"`. -/
theorem range_tokens_expand_to_walk_witness :
    matchRange "01-03" = some ("01", "03") ∧
    expandToken "01-03" = .ok ((walkRange (endpointVal "01") (endpointVal "03")).map
      (fun n => "sub-" ++ zfill 2 (pyStrOfNat n))) :=
  ⟨rfl, range_tokens_expand_to_walk.1 "01-03" "01" "03" rfl⟩

/-- Claim C2: a non-range token is normalized as a single token: after
trimming and stripping one optional leading `sub-`, an all-digit core is
emitted zero-padded to minimum width 2 (padding is a minimum: `"100"`
becomes `"sub-100"`), a non-empty alphanumeric core is emitted unchanged
behind `sub-`, and anything else, including the empty core of `"sub-"`,
fails with `InvalidSubjectToken`. -/
theorem single_token_normalization :
    (∀ tok : String, (pyStrip tok).data ≠ [] → matchRange (pyStrip tok) = none →
      ((isDigitStr (stripSub (pyStrip tok)) = true →
        expand_subject_tokens [tok] =
          .ok ["sub-" ++ zfill 2 (stripSub (pyStrip tok))]) ∧
       (isDigitStr (stripSub (pyStrip tok)) = false →
        isAlnumStr (stripSub (pyStrip tok)) = true →
        expand_subject_tokens [tok] = .ok ["sub-" ++ stripSub (pyStrip tok)]) ∧
       (isDigitStr (stripSub (pyStrip tok)) = false →
        isAlnumStr (stripSub (pyStrip tok)) = false →
        expand_subject_tokens [tok] =
          .error (.invalidSubjectToken (pyStrip tok))))) ∧
    (∀ s : String, 2 ≤ s.data.length → zfill 2 s = s) ∧
    expand_subject_tokens ["100"] = .ok ["sub-100"] ∧
    expand_subject_tokens ["sub-"] = .error (.invalidSubjectToken "sub-") := by
  refine ⟨?_, fun s h => zfill_eq_self_of_len h, rfl, rfl⟩
  intro tok hne hnr
  refine ⟨?_, ?_, ?_⟩
  · intro hd
    refine expand_single_eval hne hnr ?_
    unfold normalize_one_subject_token
    rw [if_neg (by simp [List.isEmpty_iff, hne]), if_pos hd]
  · intro hd ha
    refine expand_single_eval hne hnr ?_
    unfold normalize_one_subject_token
    rw [if_neg (by simp [List.isEmpty_iff, hne]), if_neg (by simp [hd]), if_pos ha]
  · intro hd ha
    refine expand_single_error hne hnr ?_
    unfold normalize_one_subject_token
    rw [if_neg (by simp [List.isEmpty_iff, hne]), if_neg (by simp [hd]),
      if_neg (by simp [ha])]

/-- Witness for C2 at the token `"100"`. -/
theorem single_token_normalization_witness :
    expand_subject_tokens ["100"] =
      .ok ["sub-" ++ zfill 2 (stripSub (pyStrip "100"))] :=
  (single_token_normalization.1 "100" (by decide) rfl).1 rfl

/-- Claim C3: after all tokens are expanded (ranges fully unrolled), the
output of `expand` is the first-occurrence de-duplication of the combined
expansion, so each SubjectId appears exactly once, at the position of its
first occurrence; in particular `expand(["sub-05","05"]) = ["sub-05"]`
and `expand(["01","abc","02"]) = ["sub-01","sub-abc","sub-02"]`. -/
theorem dedup_first_occurrence :
    (∀ tokens expanded : List String, expandAll tokens = .ok expanded →
      expand_subject_tokens tokens = .ok (specFirstOccurrenceDedup expanded) ∧
      (specFirstOccurrenceDedup expanded).Nodup) ∧
    expand_subject_tokens ["sub-05", "05"] = .ok ["sub-05"] ∧
    expand_subject_tokens ["01", "abc", "02"] =
      .ok ["sub-01", "sub-abc", "sub-02"] := by
  refine ⟨?_, rfl, rfl⟩
  intro tokens expanded h
  constructor
  · unfold expand_subject_tokens
    rw [h, ← dedupAcc_nil_eq_spec]
  · rw [← dedupAcc_nil_eq_spec]
    exact dedupAcc_nodup

/-- Witness for C3 at the tokens `["sub-05", "05"]`. -/
theorem dedup_first_occurrence_witness :
    expand_subject_tokens ["sub-05", "05"] =
      .ok (specFirstOccurrenceDedup ["sub-05", "sub-05"]) ∧
    (specFirstOccurrenceDedup ["sub-05", "sub-05"]).Nodup :=
  dedup_first_occurrence.1 ["sub-05", "05"] ["sub-05", "sub-05"] rfl

/-- Claim C4 counterexample: `expand([""])` does not fail with a validation
error; it succeeds and returns the empty list, because the expansion loop
silently skips tokens that are empty after trimming. -/
theorem empty_token_not_rejected : expand_subject_tokens [""] = .ok [] := rfl

/-- Claim C4 (amended): a token that is empty or all-whitespace after
trimming is silently skipped (the result equals the expansion of the
remaining tokens), and `expand` never fails with `EmptyToken`. -/
theorem blank_tokens_skipped :
    (∀ (tok : String) (tokens : List String), pyStripData tok.data = [] →
      expand_subject_tokens (tok :: tokens) = expand_subject_tokens tokens) ∧
    ∀ tokens : List String,
      expand_subject_tokens tokens ≠ .error SubjectError.emptyToken := by
  constructor
  · intro tok tokens h
    exact expand_skip h tokens
  · intro tokens h
    unfold expand_subject_tokens at h
    split at h
    next e he =>
      injection h with h1
      subst h1
      exact expandAll_no_empty_error he
    next l hl => exact absurd h (by simp)

/-- Witness for the amended C4 at the tokens `["  ", "01"]`. -/
theorem blank_tokens_skipped_witness :
    expand_subject_tokens ["  ", "01"] = expand_subject_tokens ["01"] ∧
    expand_subject_tokens ["01"] ≠ .error SubjectError.emptyToken :=
  ⟨blank_tokens_skipped.1 "  " ["01"] rfl, blank_tokens_skipped.2 ["01"]⟩

/-- Claim C5: `expand` is idempotent on its own output: re-expanding a
successful result returns it unchanged. -/
theorem expand_idempotent :
    ∀ tokens out : List String, expand_subject_tokens tokens = .ok out →
      expand_subject_tokens out = .ok out := by
  intro tokens out h
  unfold expand_subject_tokens at h
  split at h
  next e he => exact absurd h (by simp)
  next l hl =>
    injection h with h1
    have hcanon : ∀ s ∈ out, Canon s := by
      intro s hs
      rw [← h1] at hs
      exact expandAll_canon hl s (dedupAcc_subset hs)
    have hnd : out.Nodup := by
      rw [← h1]
      exact dedupAcc_nodup
    unfold expand_subject_tokens
    rw [expandAll_canon_fixed hcanon]
    show Except.ok (dedupAcc [] out) = Except.ok out
    rw [dedupAcc_fixed hnd (fun s _ hc => by simp at hc)]

/-- Witness for C5 at the output of `expand(["01-03"])`. -/
theorem expand_idempotent_witness :
    expand_subject_tokens ["sub-01", "sub-02", "sub-03"] =
      .ok ["sub-01", "sub-02", "sub-03"] :=
  expand_idempotent ["01-03"] ["sub-01", "sub-02", "sub-03"] rfl

/-- Concrete group-level options with no input directory, for witnesses. -/
def groupNoInputOpts : InvocationOptions :=
  { bidsdir := "/b", workdir := "/w", mode := .groupLevel, verbose := false,
    debug := false, inputDirectory := none, seeddir := none, onlyStep := none,
    skipStep := none, subjectInclude := none, subjectExclude := none, nProcs := 1 }

/-- A filesystem on which every path exists and is a directory. -/
def fsAll : Fs := ⟨fun _ => true, fun _ => true⟩

/-- Claim C6: in `group-level` mode without an input directory, `build`
never produces a command vector, and whenever the environment and the
seed-directory gates pass it fails with exactly `MissingRequiredOption`. -/
theorem group_level_requires_input :
    ∀ (o : InvocationOptions) (env : Option String) (fs : Fs),
      o.mode = .groupLevel → o.inputDirectory = none →
      (∀ cmd, build_command o env fs ≠ .ok cmd) ∧
      (envOk env fs → seedOk o fs →
        build_command o env fs = .error .missingRequiredOption) := by
  intro o env fs hm hin
  constructor
  · intro cmd h
    obtain ⟨sif, binds, _, _, _, _, hbt⟩ := build_ok_inv h
    rw [buildTail_group_no_input hm hin] at hbt
    exact absurd hbt (by simp)
  · rintro ⟨sif, he, h1, h2⟩ hseed
    obtain ⟨binds, hb⟩ := mkBinds_ok_of_seedOk hseed
    rw [build_eval_env he h1 h2, hb]
    show buildTail o fs sif binds = Except.error BuildError.missingRequiredOption
    exact buildTail_group_no_input hm hin

/-- Witness for C6 at concrete options, environment and filesystem. -/
theorem group_level_requires_input_witness :
    build_command groupNoInputOpts (some "/sif") fsAll =
      .error .missingRequiredOption :=
  (group_level_requires_input groupNoInputOpts (some "/sif") fsAll rfl rfl).2
    ⟨"/sif", rfl, by decide, rfl⟩ (fun sd h => nomatch h)

/-- Concrete options supplying the Python-falsy empty string as the seed
directory. -/
def seedEmptyOpts : InvocationOptions :=
  { bidsdir := "/b", workdir := "/w", mode := .uiOld, verbose := false,
    debug := false, inputDirectory := none, seeddir := some "", onlyStep := none,
    skipStep := none, subjectInclude := none, subjectExclude := none, nProcs := 1 }

/-- A filesystem on which every path exists, and every path except the
empty one is a directory. -/
def fsNoEmptyDir : Fs := ⟨fun _ => true, fun s => !s.data.isEmpty⟩

/-- Claim C7 counterexample: with the seed directory supplied as the empty
string, which is not an existing directory, `build` does not fail with
`InvalidSeedDirectory`; the Python truthiness test `if args.seeddir:`
skips the check and a command vector without the seed bind is returned. -/
theorem seed_bind_claim_false :
    seedEmptyOpts.seeddir = some "" ∧ fsNoEmptyDir.isDir "" = false ∧
    build_command seedEmptyOpts (some "/sif") fsNoEmptyDir =
      .ok ["singularity", "run", "--bind", "/b:/b,/w:/w", "/sif"] :=
  ⟨rfl, rfl, rfl⟩

/-- Claim C7 (amended): the seed bind pair appears in the returned vector
exactly when a non-empty seed directory was supplied and exists; a
supplied non-empty non-existent seed directory always fails with
`InvalidSeedDirectory` before any vector is returned (under a passing
environment gate), while an empty-string seed directory is silently
ignored like an absent one. -/
theorem seed_bind_amended :
    ∀ (o : InvocationOptions) (env : Option String) (fs : Fs),
      (∀ s, o.seeddir = some s → s.data ≠ [] → fs.isDir s = false →
        (∀ cmd, build_command o env fs ≠ .ok cmd) ∧
        (envOk env fs →
          build_command o env fs = .error (.invalidSeedDirectory s))) ∧
      (∀ cmd, build_command o env fs = .ok cmd →
        ∃ binds, mkBinds o fs = .ok binds ∧
          cmd[3]? = some (String.intercalate "," binds) ∧
          (∀ s, o.seeddir = some s → s.data ≠ [] → fs.isDir s = true ∧
            binds = [o.bidsdir ++ ":" ++ o.bidsdir,
              o.workdir ++ ":" ++ o.workdir, s ++ ":" ++ s]) ∧
          (o.seeddir = none →
            binds = [o.bidsdir ++ ":" ++ o.bidsdir,
              o.workdir ++ ":" ++ o.workdir]) ∧
          (∀ s, o.seeddir = some s → s.data = [] →
            binds = [o.bidsdir ++ ":" ++ o.bidsdir,
              o.workdir ++ ":" ++ o.workdir])) := by
  intro o env fs
  constructor
  · intro s hs hne hd
    constructor
    · intro cmd h
      obtain ⟨sif, binds, _, _, _, hb, _⟩ := build_ok_inv h
      rw [mkBinds_err hs hne hd] at hb
      exact absurd hb (by simp)
    · rintro ⟨sif, he, h1, h2⟩
      rw [build_eval_env he h1 h2, mkBinds_err hs hne hd]
  · intro cmd h
    obtain ⟨sif, binds, he, h1, h2, hb, hbt⟩ := build_ok_inv h
    refine ⟨binds, hb, ?_, ?_, ?_, ?_⟩
    · rcases buildTail_ok_inv hbt with ⟨hm, t, ht⟩ | ⟨hw, t, ht⟩
      · rw [ht]
        exact baseRun_append_get3 sif binds t
      · rw [ht]
        exact baseExec_append_get3 sif binds t
    · intro s hs hne
      cases hd : fs.isDir s with
      | true =>
        refine ⟨rfl, ?_⟩
        rw [mkBinds_seed hs hne hd] at hb
        injection hb with hb1
        exact hb1.symm
      | false =>
        rw [mkBinds_err hs hne hd] at hb
        exact absurd hb (by simp)
    · intro hs
      rw [mkBinds_none hs] at hb
      injection hb with hb1
      exact hb1.symm
    · intro s hs he2
      rw [mkBinds_empty hs he2] at hb
      injection hb with hb1
      exact hb1.symm

/-- Concrete options supplying an existing non-empty seed directory. -/
def seedOpts : InvocationOptions :=
  { bidsdir := "/b", workdir := "/w", mode := .uiOld, verbose := false,
    debug := false, inputDirectory := none, seeddir := some "/seed",
    onlyStep := none, skipStep := none, subjectInclude := none,
    subjectExclude := none, nProcs := 1 }

/-- Witness for the amended C7 at a successful build with a seed
directory. -/
theorem seed_bind_amended_witness :
    ∃ binds, mkBinds seedOpts fsAll = .ok binds ∧
      (["singularity", "run", "--bind", "/b:/b,/w:/w,/seed:/seed",
        "/sif"] : List String)[3]? = some (String.intercalate "," binds) ∧
      (∀ s, seedOpts.seeddir = some s → s.data ≠ [] → fsAll.isDir s = true ∧
        binds = [seedOpts.bidsdir ++ ":" ++ seedOpts.bidsdir,
          seedOpts.workdir ++ ":" ++ seedOpts.workdir, s ++ ":" ++ s]) ∧
      (seedOpts.seeddir = none →
        binds = [seedOpts.bidsdir ++ ":" ++ seedOpts.bidsdir,
          seedOpts.workdir ++ ":" ++ seedOpts.workdir]) ∧
      (∀ s, seedOpts.seeddir = some s → s.data = [] →
        binds = [seedOpts.bidsdir ++ ":" ++ seedOpts.bidsdir,
          seedOpts.workdir ++ ":" ++ seedOpts.workdir]) :=
  (seed_bind_amended seedOpts (some "/sif") fsAll).2
    ["singularity", "run", "--bind", "/b:/b,/w:/w,/seed:/seed", "/sif"] rfl

/-- Claim C8: supplying both an `--only-step` and a `--skip-step` selection
is rejected at option validation (the argparse mutually exclusive group),
so no command vector is ever produced for such an invocation, in
particular none containing both an `--only-<step>` and a `--skip-<step>`
flag. -/
theorem only_and_skip_mutually_exclusive :
    ∀ (o : InvocationOptions) (env : Option String) (fs : Fs) (a b : StepChoice),
      o.onlyStep = some a → o.skipStep = some b →
      parseAndBuild o env fs = .error .mutuallyExclusiveSteps := by
  intro o env fs a b ha hb
  unfold parseAndBuild validateStepSelection
  rw [ha, hb]

/-- Concrete options selecting both an only-step and a skip-step. -/
def bothStepsOpts : InvocationOptions :=
  { bidsdir := "/b", workdir := "/w", mode := .tui, verbose := false,
    debug := false, inputDirectory := none, seeddir := none,
    onlyStep := some .running, skipStep := some .specUi,
    subjectInclude := none, subjectExclude := none, nProcs := 1 }

/-- Witness for C8 at concrete options. -/
theorem only_and_skip_mutually_exclusive_witness :
    parseAndBuild bothStepsOpts (some "/sif") fsAll =
      .error .mutuallyExclusiveSteps :=
  only_and_skip_mutually_exclusive bothStepsOpts (some "/sif") fsAll
    .running .specUi rfl rfl

/-- Claim C9: in the `tui`, `model` and `group-level` modes, `build` always
fails when the working directory is not an existing directory, whatever
the step selection; the `ui-old` mode performs no such check and can
succeed on the same filesystem. -/
theorem workdir_check_modes :
    ∀ (o : InvocationOptions) (env : Option String) (fs : Fs),
      ((o.mode = .tui ∨ o.mode = .model ∨ o.mode = .groupLevel) →
        fs.isDir o.workdir = false →
        ∀ cmd, build_command o env fs ≠ .ok cmd) ∧
      (o.mode = .uiOld → envOk env fs → seedOk o fs →
        ∃ cmd, build_command o env fs = .ok cmd) := by
  intro o env fs
  constructor
  · intro hmode hw cmd h
    obtain ⟨sif, binds, _, _, _, _, hbt⟩ := build_ok_inv h
    rcases buildTail_ok_inv hbt with ⟨hm, _⟩ | ⟨hw2, _⟩
    · rcases hmode with h1 | h1 | h1 <;> rw [h1] at hm <;> exact absurd hm (by simp)
    · rw [hw] at hw2
      exact absurd hw2 (by simp)
  · intro hm henv hseed
    obtain ⟨sif, he, h1, h2⟩ := henv
    obtain ⟨binds, hb⟩ := mkBinds_ok_of_seedOk hseed
    refine ⟨add_common_flags (baseRun sif binds) o, ?_⟩
    rw [build_eval_env he h1 h2, hb]
    show buildTail o fs sif binds = _
    exact buildTail_uiOld hm

/-- Concrete `ui-old` options. -/
def uiOldOpts : InvocationOptions :=
  { bidsdir := "/b", workdir := "/w", mode := .uiOld, verbose := false,
    debug := false, inputDirectory := none, seeddir := none, onlyStep := none,
    skipStep := none, subjectInclude := none, subjectExclude := none, nProcs := 1 }

/-- A filesystem on which every path exists but no path is a directory. -/
def fsNoDirs : Fs := ⟨fun _ => true, fun _ => false⟩

/-- Witness for C9: `ui-old` succeeds on a filesystem with no directory at
the working-directory path. -/
theorem workdir_check_modes_witness :
    ∃ cmd, build_command uiOldOpts (some "/sif") fsNoDirs = .ok cmd :=
  (workdir_check_modes uiOldOpts (some "/sif") fsNoDirs).2 rfl
    ⟨"/sif", rfl, by decide, rfl⟩ (fun sd h => nomatch h)

/-- Claim C10: a numeric token with leading zeros beyond width 2 and its
degenerate equal-endpoint range disagree: `expand(["007"])` keeps the
token's own padding (`"sub-007"`), while `expand(["007-007"])` re-renders
through the integer value and drops it (`"sub-07"`). -/
theorem leading_zero_discrepancy :
    expand_subject_tokens ["007"] = .ok ["sub-007"] ∧
    expand_subject_tokens ["007-007"] = .ok ["sub-07"] :=
  ⟨rfl, rfl⟩
